import Mathlib

/-!
Shallow embedding of the itinerary matching, ranking and deduplication engine
of `src/seats_avios_daily.py`.

Conventions of the embedding:
* Calendar dates are modelled as integers (a day number); Python's
  `(d1 - d0).days` becomes integer subtraction, and `date.isoformat()` is
  rendered by `toString` on the day number (the serialization is injective,
  which is all the fingerprint and link code relies on).
* A raw seats.aero row (a JSON object) is modelled by `Row`: the boolean
  availability flags, the already-parsed date (`row_date`'s result), the
  numeric-field lookup `fields` (for a key: `none` = key absent,
  `some none` = present but not parsable as a number, `some (some n)` =
  parses to `n` — covering both `int(x)` and the `int(float(x))` fallback),
  the origin/destination alias fields, and the optional `Seats` value.
* The Python in-memory dict `seen` (fingerprint → {"date": iso}) is modelled
  as a function `String → Option Int` holding the parsed date; `load_seen`'s
  per-entry date-parse failure drops the entry, so a loaded cache only ever
  holds parsed dates.
* Python's `list.sort(key=...)` is a stable ascending sort by the key; it is
  modelled with `List.mergeSort`, which is stable.
-/

namespace AviosSearch

/-- Configuration consumed by the engine (the `MIN_RET_DAYS`, `MAX_RET_DAYS`,
`FLEX_DAYS`, `SCAN_ORIGIN`, `SCAN_HUB` values of the script). -/
structure Config where
  minRetDays : Int
  maxRetDays : Int
  flexDays : Int
  scanOrigin : String
  scanHub : String
deriving Repr, DecidableEq

/-- One raw availability row, as far as the engine reads it. -/
structure Row where
  jAvailable : Bool
  fAvailable : Bool
  /-- Result of `row_date` on this row: `some d` when the `ParsedDate`/`Date`
  field parses, `none` otherwise. -/
  parsedDate : Option Int
  /-- Numeric field lookup of the underlying dict: `none` = key absent,
  `some none` = key present but not numeric-coercible, `some (some n)` = the
  value coerces to the integer `n`. -/
  fields : String → Option (Option Int)
  /-- `row["Route"]["OriginAirport"]` when present. -/
  routeOrig : Option String
  /-- `row["Route"]["DestinationAirport"]` when present. -/
  routeDest : Option String
  /-- Flat `row["OriginAirport"]` when present. -/
  flatOrig : Option String
  /-- Flat `row["DestinationAirport"]` when present. -/
  flatDest : Option String
  /-- `row["Seats"]` when present (as an integer). -/
  seats : Option Int

/-- One classified leg (an element of `out_rows` / `ret_rows` in `main`). -/
structure Leg where
  orig : Option String
  dest : Option String
  date : Int
  cabin : String
  avios : Int
  cash : Int
  seats : Int
deriving Repr, DecidableEq

/-- One paired itinerary (an element of `pairs` in `main`). -/
structure Pair where
  orig : String
  dest : String
  dep : Int
  ret : Int
  cabin : String
  avios : Int
  cash : Int
  seats : Int
  link : String
deriving Repr, DecidableEq

/-- `is_premium_row`: only Business (J) / First (F). -/
def is_premium_row (r : Row) : Bool :=
  r.jAvailable || r.fAvailable

/-- Alias keys `row_avios` tries, in order. -/
def AVIOS_KEYS : List String := ["Avios", "AviosPrice", "AviosCost", "Points", "AwardCost"]

/-- Alias keys `row_taxes` tries, in order. -/
def TAXES_KEYS : List String := ["Taxes", "Cash", "CashCost"]

/-- The key-alias loop shared by `row_avios` and `row_taxes`: the first key
that is present and numeric-coercible wins; a present but unparsable value
falls through to the next key (the `except: pass`). -/
def firstParsable (fields : String → Option (Option Int)) : List String → Option Int
  | [] => none
  | k :: ks =>
    match fields k with
    | none => firstParsable fields ks
    | some none => firstParsable fields ks
    | some (some n) => some n

/-- `row_avios`: first parsable alias value, defaulting high (`10^9`) if
missing, to push the row down the list. -/
def row_avios (r : Row) : Int :=
  (firstParsable r.fields AVIOS_KEYS).getD (10 ^ 9)

/-- `row_taxes`: first parsable alias value, defaulting to `10^9` if missing. -/
def row_taxes (r : Row) : Int :=
  (firstParsable r.fields TAXES_KEYS).getD (10 ^ 9)

/-- Body of the outbound normalization loop in `main`: skip non-premium rows
and rows without a parsable date; otherwise build the leg dict. The cabin is
`"First"` when `FAvailable` is truthy, else `"Business"`; `orig` falls back to
`out_origins[0]`; `dest` has no fallback. -/
def normalizeOutRow (defaultOrig : String) (r : Row) : Option Leg :=
  if is_premium_row r = false then none
  else
    match r.parsedDate with
    | none => none
    | some d =>
      some
        { orig := r.routeOrig <|> r.flatOrig <|> some defaultOrig
          dest := r.routeDest <|> r.flatDest
          date := d
          cabin := if r.fAvailable then "First" else "Business"
          avios := row_avios r
          cash := row_taxes r
          seats := r.seats.getD 1 }

/-- Body of the return normalization loop in `main`: as the outbound one, but
`orig` has no fallback and `dest` falls back to `ret_dest`. -/
def normalizeRetRow (defaultDest : String) (r : Row) : Option Leg :=
  if is_premium_row r = false then none
  else
    match r.parsedDate with
    | none => none
    | some d =>
      some
        { orig := r.routeOrig <|> r.flatOrig
          dest := r.routeDest <|> r.flatDest <|> some defaultDest
          date := d
          cabin := if r.fAvailable then "First" else "Business"
          avios := row_avios r
          cash := row_taxes r
          seats := r.seats.getD 1 }

/-- The outbound normalization loop over all fetched rows. -/
def normalizeOutRows (defaultOrig : String) (rows : List Row) : List Leg :=
  rows.filterMap (normalizeOutRow defaultOrig)

/-- The return normalization loop over all fetched rows. -/
def normalizeRetRows (defaultDest : String) (rows : List Row) : List Leg :=
  rows.filterMap (normalizeRetRow defaultDest)

/-- `booking_link`: a stable search anchor. Mirrors the Python function: the
query string is built from `tripType`, `origin_home`, `dest` and the two
dates; the first parameter `orig` is accepted but never used in the URL. -/
def booking_link (orig : String) (dest : String) (depDate : Int)
    (retDate : Option Int) (originHome : String) : String :=
  let tripType := if retDate.isSome then "RT" else "OW"
  let retStr := match retDate with
    | some d => toString d
    | none => ""
  "https://www.qatarairways.com/search?tripType=" ++ tripType ++
    "&origin=" ++ originHome ++ "&destination=" ++ dest ++
    "&departureDate=" ++ toString depDate ++ "&returnDate=" ++ retStr

/-- The pair dict appended by the pairing loop for EU city `eu`, outbound leg
`o` and return leg `r`: origin is relabelled to `SCAN_ORIGIN`, destination to
the EU city, and the link is `booking_link(SCAN_HUB, eu, o.date, r.date,
SCAN_ORIGIN)`. -/
def mkPair (cfg : Config) (eu : String) (o r : Leg) : Pair :=
  { orig := cfg.scanOrigin
    dest := eu
    dep := o.date
    ret := r.date
    cabin := o.cabin
    avios := o.avios + r.avios
    cash := o.cash + r.cash
    seats := min o.seats r.seats
    link := booking_link cfg.scanHub eu o.date (some r.date) cfg.scanOrigin }

/-- Body of the innermost pairing loop: reject when the stay length is outside
`[MIN_RET_DAYS, MAX_RET_DAYS]` or the cabins differ, else emit the pair. -/
def pairOne (cfg : Config) (eu : String) (o r : Leg) : Option Pair :=
  let delta := r.date - o.date
  if delta < cfg.minRetDays ∨ delta > cfg.maxRetDays then none
  else if o.cabin ≠ r.cabin then none
  else some (mkPair cfg eu o r)

/-- The pairing loop of `main`: for each EU city, the outbound legs whose
destination is that city are paired against the return legs whose origin is
that city (the `defaultdict` grouping keeps per-key input order, which
`List.filter` reproduces). -/
def pairLegs (cfg : Config) (euList : List String) (outRows retRows : List Leg) :
    List Pair :=
  euList.flatMap fun eu =>
    let outs := outRows.filter fun o => o.dest == some eu
    let rets := retRows.filter fun r => r.orig == some eu
    outs.flatMap fun o => rets.filterMap fun r => pairOne cfg eu o r

/-- The sort order of `pairs.sort(key=lambda x: (x["avios"], x["cash"]))`:
ascending lexicographically on (avios, cash). -/
def pairLe (a b : Pair) : Bool :=
  decide (a.avios < b.avios) || (decide (a.avios = b.avios) && decide (a.cash ≤ b.cash))

/-- The ranking step: Python's `list.sort` is a stable ascending sort by the
key, modelled by the (stable) `List.mergeSort`. -/
def rankPairs (ps : List Pair) : List Pair :=
  ps.mergeSort pairLe

/-- The in-memory dedup dict: fingerprint → parsed last-seen date. -/
abbrev Cache := String → Option Int

/-- The empty cache (a missing or unreadable cache file). -/
def emptyCache : Cache := fun _ => none

/-- Dict assignment `seen[k] = {"date": today_iso}`. -/
def mark_seen (k : String) (today : Int) (c : Cache) : Cache :=
  fun q => if q = k then some today else c q

/-- The pruning half of `load_seen`: keep an entry iff its date is at least
`today - max_age_days` (the cutoff); entries are compared with `ts >= cutoff`,
so the boundary entry is retained. -/
def prune_seen (c : Cache) (today maxAgeDays : Int) : Cache :=
  fun k =>
    match c k with
    | some ts => if today - maxAgeDays ≤ ts then some ts else none
    | none => none

/-- The spec's `isNew`: a fingerprint is new iff it is absent from the cache
(the pairing loop's `if k in seen: continue`). -/
def isNew (k : String) (c : Cache) : Bool :=
  (c k).isNone

/-- `hit_key` applied to a pair, as the dedup loop calls it. -/
def hit_key (p : Pair) : String :=
  p.orig ++ "|" ++ p.dest ++ "|" ++ toString p.dep ++ "|" ++ toString p.ret ++
    "|" ++ p.cabin ++ "|" ++ toString p.avios ++ "|" ++ toString p.cash

/-- The dedup loop of `main`: pairs whose fingerprint is already in `seen` are
skipped (and `seen` is left untouched for them); a fresh pair is recorded with
today's date and kept. Returns (fresh list, final cache). -/
def dedupLoop (today : Int) (seen : Cache) : List Pair → List Pair × Cache
  | [] => ([], seen)
  | p :: rest =>
    if (seen (hit_key p)).isSome then dedupLoop today seen rest
    else
      let res := dedupLoop today (mark_seen (hit_key p) today seen) rest
      (p :: res.1, res.2)

/-- The dedup phase of a run: load-and-prune with `max_age_days = DEDUP_DAYS`
(whatever its sign), run the dedup loop, and save the final cache — `main`
calls `save_seen(seen)` unconditionally, so the saved cache is always `some`. -/
def runDedupPhase (dedupDays today : Int) (stored : Cache) (pairs : List Pair) :
    List Pair × Option Cache :=
  let seen := prune_seen stored today dedupDays
  let res := dedupLoop today seen pairs
  (res.1, some res.2)

/-- `sweet_badge`: the cost-tier colour, with the two thresholds written into
the function body. -/
def sweet_badge (avios : Int) : String :=
  if avios ≤ 90000 then "green"
  else if avios < 100000 then "darkorange"
  else "inherit"

/-- Modelled from the spec's words (for comparison with `sweet_badge`): tier
assignment with the sweet-spot and upper thresholds supplied as configuration
values — "sweet" (green) when the miles are at most `sweetSpotThreshold`,
"good" (darkorange) when below `upperThreshold`, otherwise "standard"
(inherit). -/
def specTierBadge (sweetSpotThreshold upperThreshold avios : Int) : String :=
  if avios ≤ sweetSpotThreshold then "green"
  else if avios < upperThreshold then "darkorange"
  else "inherit"

/-! Helper lemmas shared by several claims. -/

/-- Characterization of the innermost pairing step. -/
theorem pairOne_eq_some {cfg : Config} {eu : String} {o r : Leg} {p : Pair} :
    pairOne cfg eu o r = some p ↔
      cfg.minRetDays ≤ r.date - o.date ∧ r.date - o.date ≤ cfg.maxRetDays ∧
      o.cabin = r.cabin ∧ p = mkPair cfg eu o r := by
  unfold pairOne
  by_cases h1 : r.date - o.date < cfg.minRetDays ∨ r.date - o.date > cfg.maxRetDays
  · rw [if_pos h1]
    simp only [reduceCtorEq, false_iff]
    rintro ⟨ha, hb, -, -⟩
    omega
  · rw [if_neg h1]
    rw [not_or] at h1
    by_cases h2 : o.cabin ≠ r.cabin
    · rw [if_pos h2]
      simp only [reduceCtorEq, false_iff]
      rintro ⟨-, -, hc, -⟩
      exact h2 hc
    · rw [if_neg h2]
      simp only [Option.some_inj]
      constructor
      · intro h
        exact ⟨by omega, by omega, not_not.mp h2, h.symm⟩
      · intro h
        exact h.2.2.2.symm

/-- Membership characterization of the pairing loop. -/
theorem mem_pairLegs {cfg : Config} {euList : List String}
    {outRows retRows : List Leg} {p : Pair} :
    p ∈ pairLegs cfg euList outRows retRows ↔
      ∃ eu ∈ euList, ∃ o ∈ outRows, ∃ r ∈ retRows,
        o.dest = some eu ∧ r.orig = some eu ∧ o.cabin = r.cabin ∧
        cfg.minRetDays ≤ r.date - o.date ∧ r.date - o.date ≤ cfg.maxRetDays ∧
        p = mkPair cfg eu o r := by
  unfold pairLegs
  simp only [List.mem_flatMap, List.mem_filterMap, List.mem_filter, beq_iff_eq,
    pairOne_eq_some]
  constructor
  · rintro ⟨eu, heu, o, ⟨ho, hod⟩, r, ⟨hr, hro⟩, hmin, hmax, hc, hp⟩
    exact ⟨eu, heu, o, ho, r, hr, hod, hro, hc, hmin, hmax, hp⟩
  · rintro ⟨eu, heu, o, ho, r, hr, hod, hro, hc, hmin, hmax, hp⟩
    exact ⟨eu, heu, o, ⟨ho, hod⟩, r, ⟨hr, hro⟩, hmin, hmax, hc, hp⟩

/-- Unfolding of the sort order as a proposition. -/
theorem pairLe_iff {a b : Pair} :
    pairLe a b = true ↔
      a.avios < b.avios ∨ (a.avios = b.avios ∧ a.cash ≤ b.cash) := by
  simp [pairLe]

/-- The sort order is transitive. -/
theorem pairLe_trans (a b c : Pair) :
    pairLe a b → pairLe b c → pairLe a c := by
  simp only [pairLe_iff]
  omega

/-- The sort order is total. -/
theorem pairLe_total (a b : Pair) : pairLe a b || pairLe b a := by
  simp only [Bool.or_eq_true, pairLe_iff]
  omega

/-! C1 — pairing window. -/

/-- C1 (counterexample): with minReturnDays = 28, maxReturnDays = 35 and
flexDays = 3, an outbound leg on day 0 and a same-city same-cabin return leg
on day 27 satisfy the claimed flex condition (k = 28 gives |27 − 28| = 1 ≤ 3),
yet the pairing loop produces no pair: the effective window is [28, 35], not
[25, 38]. -/
theorem pairing_window_flex_cex :
    (∃ k : Int, 28 ≤ k ∧ k ≤ 35 ∧ |(27 : Int) - (0 + k)| ≤ 3) ∧
    pairLegs
      { minRetDays := 28, maxRetDays := 35, flexDays := 3,
        scanOrigin := "AKL", scanHub := "DOH" }
      ["FCO"]
      [{ orig := some "DOH", dest := some "FCO", date := 0, cabin := "Business",
         avios := 70000, cash := 500, seats := 2 }]
      [{ orig := some "FCO", dest := some "DOH", date := 27, cabin := "Business",
         avios := 75000, cash := 600, seats := 3 }] = [] := by
  constructor
  · exact ⟨28, by norm_num⟩
  · decide

/-- C1 (amended): the pairing engine produces a pair exactly for the leg
combinations with matching EU city and cabin whose stay length lies in the
inclusive window [minReturnDays, maxReturnDays]; flexDays plays no part in
pairing (the right-hand side does not mention it). -/
theorem pairing_window_correctness (cfg : Config) (euList : List String)
    (outRows retRows : List Leg) (p : Pair) :
    p ∈ pairLegs cfg euList outRows retRows ↔
      ∃ eu ∈ euList, ∃ o ∈ outRows, ∃ r ∈ retRows,
        o.dest = some eu ∧ r.orig = some eu ∧ o.cabin = r.cabin ∧
        cfg.minRetDays ≤ r.date - o.date ∧ r.date - o.date ≤ cfg.maxRetDays ∧
        p = mkPair cfg eu o r :=
  mem_pairLegs

/-! C2 — ranking. -/

/-- A pair used by the ranking counterexample. -/
def pairAms : Pair :=
  { orig := "AKL", dest := "AMS", dep := 10, ret := 40, cabin := "Business",
    avios := 150000, cash := 400, seats := 1, link := "L1" }

/-- A second pair, tied with `pairAms` on (avios, cash) but for another city. -/
def pairFco : Pair :=
  { orig := "AKL", dest := "FCO", dep := 12, ret := 42, cabin := "Business",
    avios := 150000, cash := 400, seats := 1, link := "L2" }

/-- C2 (counterexample): two itineraries tied on (totalMiles, totalTaxes) with
different destinations come back in input order under either input
permutation, so the two permutations of the same set yield different output
sequences and the tie is not broken by destination or dates. -/
theorem ranking_determinism_cex :
    rankPairs [pairAms, pairFco] = [pairAms, pairFco] ∧
    rankPairs [pairFco, pairAms] = [pairFco, pairAms] ∧
    rankPairs [pairAms, pairFco] ≠ rankPairs [pairFco, pairAms] := by
  have hAF : pairLe pairAms pairFco = true := by decide
  have hFA : pairLe pairFco pairAms = true := by decide
  have h1 : rankPairs [pairAms, pairFco] = [pairAms, pairFco] :=
    List.mergeSort_of_sorted (List.pairwise_pair.mpr hAF)
  have h2 : rankPairs [pairFco, pairAms] = [pairFco, pairAms] :=
    List.mergeSort_of_sorted (List.pairwise_pair.mpr hFA)
  refine ⟨h1, h2, ?_⟩
  rw [h1, h2]
  decide

/-- C2 (amended): the ranking step stably sorts the itineraries ascending by
the key (totalMiles, totalTaxes) only: the output is a permutation of the
input, adjacent outputs are ordered by that key, and any two itineraries that
appear in key order in the input keep that relative order in the output (so
ties on the full key retain input order rather than being broken by
destination or dates). -/
theorem ranking_stable_sort (ps : List Pair) :
    List.Perm (rankPairs ps) ps ∧
    List.Pairwise (fun a b => pairLe a b = true) (rankPairs ps) ∧
    ∀ a b, List.Sublist [a, b] ps → pairLe a b = true →
      List.Sublist [a, b] (rankPairs ps) := by
  refine ⟨List.mergeSort_perm ps pairLe,
    List.sorted_mergeSort pairLe_trans pairLe_total ps, ?_⟩
  intro a b hsub hle
  exact List.pair_sublist_mergeSort pairLe_trans pairLe_total hle hsub

/-! C3 — dedup TTL boundary and monotonicity. -/

/-- Pruning evaluated at a key just marked: the entry survives exactly when
its date meets the cutoff. -/
theorem prune_mark_self (c : Cache) (f : String) (T today ttl : Int) :
    prune_seen (mark_seen f T c) today ttl f =
      if today - ttl ≤ T then some T else none := by
  simp [prune_seen, mark_seen]

/-- C3: a fingerprint marked seen on day T is still present after pruning with
today = Tq whenever Tq − T ≤ ttl (so isNew is false), is removed once
Tq − T > ttl (so isNew is true), and an entry exactly at the boundary
(lastSeen = today − ttl) is retained with its date. -/
theorem dedup_ttl_boundary (c : Cache) (f : String) (T ttl Tq : Int)
    (httl : 0 < ttl) :
    (Tq - T ≤ ttl → isNew f (prune_seen (mark_seen f T c) Tq ttl) = false) ∧
    (ttl < Tq - T → isNew f (prune_seen (mark_seen f T c) Tq ttl) = true) ∧
    prune_seen (mark_seen f (Tq - ttl) c) Tq ttl f = some (Tq - ttl) := by
  refine ⟨?_, ?_, ?_⟩
  · intro h
    rw [isNew, prune_mark_self, if_pos (by omega)]
    rfl
  · intro h
    rw [isNew, prune_mark_self, if_neg (by omega)]
    rfl
  · rw [prune_mark_self, if_pos (by omega)]

/-- C3 (witness): the theorem at the concrete scenario of the spec —
fingerprint seen on day 0, ttl 7: still seen on day 4, new again on day 8. -/
theorem dedup_ttl_boundary_witness :
    (((4 : Int) - 0 ≤ 7 → isNew "F" (prune_seen (mark_seen "F" 0 emptyCache) 4 7) = false) ∧
     ((7 : Int) < 4 - 0 → isNew "F" (prune_seen (mark_seen "F" 0 emptyCache) 4 7) = true) ∧
     prune_seen (mark_seen "F" ((4 : Int) - 7) emptyCache) 4 7 "F" = some (4 - 7)) :=
  dedup_ttl_boundary emptyCache "F" 0 7 4 (by norm_num)

/-! C4 — classifier cost eligibility. -/

/-- A premium row whose miles cost field is present and equals 0. -/
def rowJzero : Row :=
  { jAvailable := true, fAvailable := false, parsedDate := some 5,
    fields := (fun k => if k = "Avios" then some (some 0) else none),
    routeOrig := some "DOH", routeDest := some "FCO", flatOrig := none,
    flatDest := none, seats := some 2 }

/-- C4 (counterexample): a record with JAvailable = true and a miles cost of 0
yields one leg carrying avios = 0 — not zero legs: the availability flag alone
qualifies the record and no positivity check exists. -/
theorem classifier_cost_cex :
    (normalizeOutRows "DOH" [rowJzero]).length = 1 ∧
    (normalizeOutRows "DOH" [rowJzero]).map Leg.avios = [0] := by
  decide

/-- C4 (amended): the classifier never inspects the miles cost when deciding
eligibility: every premium row with a parsable date yields exactly one leg,
whose avios is `row_avios` (the first parsable alias value, carried forward
even when zero or negative); only when every alias key is absent or
unparsable does the sentinel 10^9 stand in. -/
theorem classifier_cost_passthrough (dO : String) (r : Row) (d : Int)
    (hp : is_premium_row r = true) (hd : r.parsedDate = some d) :
    (∃ leg, normalizeOutRow dO r = some leg ∧ leg.avios = row_avios r ∧
      leg.cash = row_taxes r) ∧
    (firstParsable r.fields AVIOS_KEYS = none → row_avios r = 10 ^ 9) := by
  constructor
  · unfold normalizeOutRow
    rw [if_neg (by simp [hp]), hd]
    exact ⟨_, rfl, rfl, rfl⟩
  · intro h
    rw [row_avios, h]
    rfl

/-- C4 (witness): the amended theorem at the zero-cost row. -/
theorem classifier_cost_passthrough_witness :
    ((∃ leg, normalizeOutRow "DOH" rowJzero = some leg ∧
        leg.avios = row_avios rowJzero ∧ leg.cash = row_taxes rowJzero) ∧
     (firstParsable rowJzero.fields AVIOS_KEYS = none →
        row_avios rowJzero = 10 ^ 9)) :=
  classifier_cost_passthrough "DOH" rowJzero 5 (by decide) (by decide)

/-! C5 — cache reflects observed-today. -/

/-- The final cache of the dedup loop, pointwise: an entry already in the
loaded cache keeps its loaded date; a fingerprint absent from it is set to
today exactly when some considered pair carries it. -/
theorem dedupLoop_cache (today : Int) :
    ∀ (pairs : List Pair) (seen : Cache) (k : String),
      (dedupLoop today seen pairs).2 k =
        match seen k with
        | some d => some d
        | none =>
          if pairs.any (fun p => hit_key p == k) then some today else none := by
  intro pairs
  induction pairs with
  | nil =>
    intro seen k
    cases h : seen k <;> simp [dedupLoop, h]
  | cons p rest ih =>
    intro seen k
    rw [dedupLoop]
    by_cases hp : (seen (hit_key p)).isSome
    · rw [if_pos hp, ih]
      cases h : seen k with
      | some d => rfl
      | none =>
        have hk : (hit_key p == k) = false := by
          rw [beq_eq_false_iff_ne]
          intro hb
          rw [hb, h] at hp
          simp at hp
        simp [List.any_cons, hk]
    · rw [if_neg hp]
      show (dedupLoop today (mark_seen (hit_key p) today seen) rest).2 k = _
      rw [ih]
      by_cases hk : k = hit_key p
      · rw [hk]
        have hseen : seen (hit_key p) = none :=
          Option.not_isSome_iff_eq_none.mp hp
        simp [mark_seen, hseen, List.any_cons]
      · have hm : mark_seen (hit_key p) today seen k = seen k := by
          simp [mark_seen, hk]
        rw [hm]
        cases h : seen k with
        | some d => rfl
        | none =>
          have hkb : (hit_key p == k) = false := by
            rw [beq_eq_false_iff_ne]
            intro hb
            exact hk hb.symm
          simp [List.any_cons, hkb]

/-- C5 (counterexample): an itinerary whose fingerprint was loaded with date 0
is considered on day 5; in the saved cache the fingerprint still maps to day
0, not to today — observed-today is not recorded for already-seen entries. -/
theorem cache_observed_today_cex :
    (((runDedupPhase 7 5 (mark_seen (hit_key pairAms) 0 emptyCache)
        [pairAms]).2.getD emptyCache) (hit_key pairAms) = some 0) ∧
    (((runDedupPhase 7 5 (mark_seen (hit_key pairAms) 0 emptyCache)
        [pairAms]).2.getD emptyCache) (hit_key pairAms) ≠ some 5) := by
  decide

/-- C5 (amended): the run always saves a cache, and in it a considered
itinerary's fingerprint maps to today only when it was absent from the loaded
(pruned) cache; a fingerprint already present keeps its previously loaded
date unchanged. -/
theorem cache_after_run (dedupDays today : Int) (stored : Cache)
    (pairs : List Pair) (k : String) :
    ∃ c, (runDedupPhase dedupDays today stored pairs).2 = some c ∧
      c k =
        match prune_seen stored today dedupDays k with
        | some d => some d
        | none =>
          if pairs.any (fun p => hit_key p == k) then some today else none := by
  refine ⟨(dedupLoop today (prune_seen stored today dedupDays) pairs).2, rfl, ?_⟩
  exact dedupLoop_cache today pairs (prune_seen stored today dedupDays) k

/-! C6 — dedup with ttlDays ≤ 0. -/

/-- C6 (counterexample): with DEDUP_DAYS = 0, a fingerprint recorded earlier
today survives pruning, so isNew is false for it and the itinerary carrying it
is suppressed; and the run still produces a cache to persist. -/
theorem dedup_zero_ttl_cex :
    isNew (hit_key pairFco)
      (prune_seen (mark_seen (hit_key pairFco) 10 emptyCache) 10 0) = false ∧
    (runDedupPhase 0 10 (mark_seen (hit_key pairFco) 10 emptyCache)
      [pairFco]).1 = [] ∧
    ((runDedupPhase 0 10 (mark_seen (hit_key pairFco) 10 emptyCache)
      [pairFco]).2).isSome = true := by
  decide

/-- C6 (amended): deduplication has no ttlDays ≤ 0 special case: for every
ttl (zero and negative included) pruning keeps exactly the entries whose
lastSeen meets the cutoff today − ttl — so with ttl = 0 an entry recorded
today still suppresses its itinerary — and the dedup phase produces a cache
to persist on every run. -/
theorem dedup_not_disabled (dedupDays today : Int) (stored : Cache)
    (pairs : List Pair) (k : String) (ts : Int) :
    ((runDedupPhase dedupDays today stored pairs).2).isSome = true ∧
    (prune_seen stored today dedupDays k = some ts ↔
      stored k = some ts ∧ today - dedupDays ≤ ts) := by
  constructor
  · rfl
  · rw [prune_seen]
    cases h : stored k with
    | none => simp
    | some u =>
      show (if today - dedupDays ≤ u then some u else none) = some ts ↔
        some u = some ts ∧ today - dedupDays ≤ ts
      by_cases hc : today - dedupDays ≤ u
      · rw [if_pos hc]
        constructor
        · intro hu
          rw [Option.some_inj] at hu
          exact ⟨by rw [hu], by omega⟩
        · intro hu
          exact hu.1
      · rw [if_neg hc]
        constructor
        · intro hu
          exact absurd hu (by simp)
        · intro hu
          have : u = ts := by
            have := hu.1
            simp only [Option.some_inj] at this
            exact this
          exact absurd hu.2 (by omega)

/-! C7 — classifier cabin multiplicity. -/

/-- A premium row with both cabin flags set. -/
def rowBoth : Row :=
  { jAvailable := true, fAvailable := true, parsedDate := some 5,
    fields := (fun k => if k = "Avios" then some (some 80000) else none),
    routeOrig := some "DOH", routeDest := some "FCO", flatOrig := none,
    flatDest := none, seats := some 2 }

/-- C7 (counterexample): a record with JAvailable = true and FAvailable = true
yields exactly one leg, labeled First — not two legs (one per cabin). -/
theorem cabin_multiplicity_cex :
    (normalizeOutRows "DOH" [rowBoth]).length = 1 ∧
    (normalizeOutRows "DOH" [rowBoth]).map Leg.cabin = ["First"] := by
  decide

/-- C7 (amended): the classifier emits at most one leg per record, and its
cabin label is First exactly when FAvailable is set (Business otherwise), so
a record available in both cabins is collapsed to a single First leg. -/
theorem cabin_single_leg (dO : String) (r : Row) :
    (normalizeOutRows dO [r]).length ≤ 1 ∧
    ∀ leg ∈ normalizeOutRows dO [r],
      leg.cabin = if r.fAvailable then "First" else "Business" := by
  have hcab : ∀ leg, normalizeOutRow dO r = some leg →
      leg.cabin = if r.fAvailable then "First" else "Business" := by
    intro leg h
    unfold normalizeOutRow at h
    by_cases hprem : is_premium_row r = false
    · rw [if_pos hprem] at h
      exact absurd h (by simp)
    · rw [if_neg hprem] at h
      cases hd : r.parsedDate with
      | none =>
        rw [hd] at h
        exact absurd h (by simp)
      | some d =>
        rw [hd] at h
        simp only [Option.some_inj] at h
        rw [← h]
  constructor
  · unfold normalizeOutRows
    cases h : normalizeOutRow dO r <;>
      simp [List.filterMap_cons, List.filterMap_nil, h]
  · intro leg hleg
    unfold normalizeOutRows at hleg
    cases h : normalizeOutRow dO r with
    | none =>
      rw [List.filterMap_cons, h] at hleg
      simp at hleg
    | some l =>
      rw [List.filterMap_cons, h] at hleg
      have : leg = l := by
        simpa using hleg
      rw [this]
      exact hcab l h

/-! C8 — cost tiering thresholds. -/

/-- C8 (counterexample): with a configured sweet-spot threshold of 80000 the
spec's tiering calls 85000 miles "good" (amber), but the code badges it
"sweet" (green): the thresholds are baked into `sweet_badge`, not taken from
configuration. -/
theorem tier_config_cex :
    sweet_badge 85000 = "green" ∧
    specTierBadge 80000 100000 85000 = "darkorange" ∧
    sweet_badge 85000 ≠ specTierBadge 80000 100000 85000 := by
  decide

/-- C8 (amended): the tier boundaries behave as the spec describes ("sweet"
iff at most the sweet-spot threshold, "good" iff strictly below the upper
threshold, "standard" otherwise), but with the two thresholds fixed at the
constants 90000 and 100000 written into `sweet_badge` rather than supplied by
configuration. -/
theorem tier_fixed_thresholds (avios : Int) :
    sweet_badge avios = specTierBadge 90000 100000 avios := rfl

/-! C9 — inverted window configuration. -/

/-- An inverted window: MIN_RET_DAYS = 35, MAX_RET_DAYS = 28. -/
def cfgInverted : Config :=
  { minRetDays := 35, maxRetDays := 28, flexDays := 3,
    scanOrigin := "AKL", scanHub := "DOH" }

/-- The same configuration with the window the right way round. -/
def cfgProper : Config :=
  { minRetDays := 28, maxRetDays := 35, flexDays := 3,
    scanOrigin := "AKL", scanHub := "DOH" }

/-- An outbound leg to FCO on day 0, used by the C9 example. -/
def outLegC9 : Leg :=
  { orig := some "DOH", dest := some "FCO", date := 0, cabin := "Business",
    avios := 70000, cash := 500, seats := 2 }

/-- A return leg from FCO on day 30, used by the C9 example. -/
def retLegC9 : Leg :=
  { orig := some "FCO", dest := some "DOH", date := 30, cabin := "Business",
    avios := 75000, cash := 600, seats := 3 }

/-- C9 (counterexample): with maxReturnDays < minReturnDays nothing refuses to
run: the pairing step completes normally and returns the empty list on legs
that pair fine under the properly ordered window. -/
theorem inverted_window_cex :
    pairLegs cfgInverted ["FCO"] [outLegC9] [retLegC9] = [] ∧
    pairLegs cfgProper ["FCO"] [outLegC9] [retLegC9] ≠ [] := by
  decide

/-- C9 (amended): no configuration validation exists; a run with
maxReturnDays < minReturnDays completes and silently produces an empty
pairing result (every stay length fails the window test), instead of failing
at startup. -/
theorem inverted_window_empty (cfg : Config) (euList : List String)
    (outRows retRows : List Leg) (hcfg : cfg.maxRetDays < cfg.minRetDays) :
    pairLegs cfg euList outRows retRows = [] := by
  rw [List.eq_nil_iff_forall_not_mem]
  intro p hp
  rw [mem_pairLegs] at hp
  obtain ⟨eu, -, o, -, r, -, -, -, -, hmin, hmax, -⟩ := hp
  omega

/-- C9 (witness): the amended theorem at the concrete inverted
configuration. -/
theorem inverted_window_empty_witness :
    pairLegs cfgInverted ["FCO"] [outLegC9] [retLegC9] = [] :=
  inverted_window_empty cfgInverted ["FCO"] [outLegC9] [retLegC9] (by decide)

/-! C10 — output origin relabeling and booking link. -/

/-- C10 (counterexample): the booking link of a pair routed via the hub DOH
carries origin AKL (the origin_home argument) and destination FCO; the
SCAN_HUB argument is ignored entirely, so the link is not built from
SCAN_HUB. -/
theorem booking_link_hub_cex :
    booking_link "DOH" "FCO" 100 (some 130) "AKL" =
      "https://www.qatarairways.com/search?tripType=RT&origin=AKL&destination=FCO&departureDate=100&returnDate=130" ∧
    booking_link "DOH" "FCO" 100 (some 130) "AKL" =
      booking_link "ZZZ" "FCO" 100 (some 130) "AKL" := by
  constructor
  · rfl
  · rfl

/-- C10 (amended): every emitted itinerary reports origin SCAN_ORIGIN and
destination the matched EU city, its link is `booking_link` of the hub and
the EU city with origin_home = SCAN_ORIGIN — and `booking_link` ignores its
first (hub) argument, so the link's airports are SCAN_ORIGIN and the EU city;
moreover the outbound legs' own origin fields never influence the output
(rewriting them arbitrarily leaves the pairing output unchanged). -/
theorem output_origin_relabeling (cfg : Config) (euList : List String)
    (outRows retRows : List Leg) :
    (∀ p ∈ pairLegs cfg euList outRows retRows,
      p.orig = cfg.scanOrigin ∧
      ∃ eu ∈ euList, p.dest = eu ∧
        p.link = booking_link cfg.scanHub eu p.dep (some p.ret) cfg.scanOrigin) ∧
    (∀ f : Leg → Option String,
      pairLegs cfg euList (outRows.map fun o => { o with orig := f o }) retRows =
        pairLegs cfg euList outRows retRows) ∧
    (∀ hub1 hub2 dest home : String, ∀ dep : Int, ∀ retD : Option Int,
      booking_link hub1 dest dep retD home = booking_link hub2 dest dep retD home) := by
  refine ⟨?_, ?_, ?_⟩
  · intro p hp
    rw [mem_pairLegs] at hp
    obtain ⟨eu, heu, o, -, r, -, -, -, -, -, -, hp⟩ := hp
    rw [hp]
    exact ⟨rfl, eu, heu, rfl, rfl⟩
  · intro f
    unfold pairLegs
    apply List.flatMap_congr
    intro eu heu
    rw [List.filter_map]
    rw [List.flatMap_map]
    rfl
  · intro hub1 hub2 dest home dep retD
    rfl

end AviosSearch
